import Mathlib

/-!
Shallow embedding of the core engine of the VSCode-Hub launcher
(vscode_project_launcher.py): the background project scanner, the cache
reconciliation logic, the single-instance channel and the executable
resolution.  Line numbers in the doc comments refer to
vscode_project_launcher.py.
-/

namespace VSCodeHub

/-- A scanned project entry as built in ProjectScannerWorker.run
(lines 142-147): an object with fields path, name, mtime, icon.
Modification times (Python floats from os.path.getmtime) are modelled as
natural numbers; the engine only compares them. -/
structure ProjectRecord where
  path : String
  name : String
  mtime : Nat
  icon : Option String
deriving DecidableEq, Repr

/-- Filesystem oracle: the environment the scanner queries.  isDir is
os.path.isdir (line 139), mtime is os.path.getmtime (line 140) and iconOf
is the result of find_project_icon (lines 91-106), which only reads the
filesystem and returns an optional icon path; no claim depends on its
internals, so it is part of the oracle. -/
structure FileSystem where
  isDir : String → Bool
  mtime : String → Nat
  iconOf : String → Option String

/-- One hexadecimal digit as accepted by urllib percent escapes, over
the character code: digits 0-9 are codes 48-57, A-F are 65-70 and a-f
are 97-102. -/
def hexDigit (c : Char) : Option Nat :=
  let n := c.toNat
  if 48 ≤ n ∧ n ≤ 57 then some (n - 48)
  else if 65 ≤ n ∧ n ≤ 70 then some (n - 55)
  else if 97 ≤ n ∧ n ≤ 102 then some (n - 87)
  else none

/-- urllib.parse.unquote (line 134) on the character list, restricted to
single-byte escapes: a percent sign followed by two hexadecimal digits
decodes to that character code, anything else is kept as written.  This
agrees with Python unquote on all ASCII escapes, the range the scanner
meets in file URIs. -/
def unquoteChars : List Char → List Char
  | [] => []
  | '%' :: a :: b :: rest =>
    match hexDigit a, hexDigit b with
    | some hi, some lo => Char.ofNat (16 * hi + lo) :: unquoteChars rest
    | _, _ => '%' :: unquoteChars (a :: b :: rest)
  | '%' :: rest => '%' :: unquoteChars rest
  | c :: rest => c :: unquoteChars rest

/-- The .replace of line 134: each forward slash becomes two backslash
characters (the Python literal there is four backslashes, an escaped
pair). -/
def repSlash : List Char → List Char
  | [] => []
  | '/' :: rest => '\\' :: '\\' :: repSlash rest
  | c :: rest => c :: repSlash rest

/-- os.path.basename (line 144), modelled as the suffix after the last
path separator; no claim constrains the name field further. -/
def basenameAux (acc : List Char) : List Char → List Char
  | [] => acc
  | c :: rest =>
    if c == '\\' || c == '/' then basenameAux [] rest
    else basenameAux (acc ++ [c]) rest

def basename (s : String) : String := String.mk (basenameAux [] s.data)

/-- Lines 133-134: a workspace URI is used only when it starts with
file:/// ; the remaining characters are percent-decoded and slashes are
replaced. -/
def decodeUri (uri : String) : Option String :=
  match uri.data with
  | 'f' :: 'i' :: 'l' :: 'e' :: ':' :: '/' :: '/' :: '/' :: rest =>
    some (String.mk (repSlash (unquoteChars rest)))
  | _ => none

/-- The descending-mtime ordering established by the scanner sort
(line 149). -/
def mtimeDesc (a b : ProjectRecord) : Prop := b.mtime ≤ a.mtime

/-- Insertion of one record into a list already sorted by descending
mtime, placing it after every record whose mtime is at least as large:
the stable behaviour of Python list.sort with reverse=True. -/
def insertDesc (x : ProjectRecord) : List ProjectRecord → List ProjectRecord
  | [] => [x]
  | y :: ys => if x.mtime ≤ y.mtime then y :: insertDesc x ys else x :: y :: ys

/-- final_projects.sort(key=lambda x: x.mtime, reverse=True) (line 149):
Python list.sort is stable, so with reverse=True records of equal mtime
keep their discovery order.  The fold processes records in discovery
order, inserting each after earlier records of equal mtime. -/
def sortByMtimeDesc (l : List ProjectRecord) : List ProjectRecord :=
  l.foldl (fun acc x => insertDesc x acc) []

theorem mem_insertDesc {a x : ProjectRecord} {l : List ProjectRecord} :
    a ∈ insertDesc x l ↔ a = x ∨ a ∈ l := by
  induction l with
  | nil => simp [insertDesc]
  | cons y ys ih =>
    by_cases h : x.mtime ≤ y.mtime
    · simp only [insertDesc, if_pos h, List.mem_cons, ih]
      tauto
    · simp only [insertDesc, if_neg h, List.mem_cons]

theorem pairwise_insertDesc {x : ProjectRecord} {l : List ProjectRecord}
    (h : l.Pairwise mtimeDesc) : (insertDesc x l).Pairwise mtimeDesc := by
  induction l with
  | nil => simp [insertDesc, mtimeDesc]
  | cons y ys ih =>
    obtain ⟨hy, hys⟩ := List.pairwise_cons.mp h
    by_cases hx : x.mtime ≤ y.mtime
    · rw [insertDesc, if_pos hx]
      refine List.pairwise_cons.mpr ⟨?_, ih hys⟩
      intro a ha
      rcases mem_insertDesc.mp ha with rfl | ha
      · exact hx
      · exact hy a ha
    · rw [insertDesc, if_neg hx]
      refine List.pairwise_cons.mpr ⟨?_, List.pairwise_cons.mpr ⟨hy, hys⟩⟩
      intro a ha
      rcases List.mem_cons.mp ha with rfl | ha
      · exact Nat.le_of_not_le hx
      · exact Nat.le_trans (hy a ha) (Nat.le_of_not_le hx)

theorem filter_of_forall_lt {t : Nat} {l : List ProjectRecord}
    (h : ∀ a ∈ l, a.mtime < t) :
    l.filter (fun r => r.mtime == t) = [] := by
  rw [List.filter_eq_nil_iff]
  intro a ha
  have := h a ha
  simp only [beq_iff_eq]
  omega

theorem filter_insertDesc {x : ProjectRecord} {l : List ProjectRecord} {t : Nat}
    (h : l.Pairwise mtimeDesc) :
    (insertDesc x l).filter (fun r => r.mtime == t)
      = if x.mtime = t then l.filter (fun r => r.mtime == t) ++ [x]
        else l.filter (fun r => r.mtime == t) := by
  induction l with
  | nil =>
    by_cases hxt : x.mtime = t <;> simp [insertDesc, hxt]
  | cons y ys ih =>
    obtain ⟨hy, hys⟩ := List.pairwise_cons.mp h
    by_cases hx : x.mtime ≤ y.mtime
    · rw [insertDesc, if_pos hx, List.filter_cons, List.filter_cons]
      rw [ih hys]
      by_cases hyt : y.mtime = t <;> by_cases hxt : x.mtime = t <;>
        simp [hyt, hxt]
    · rw [insertDesc, if_neg hx, List.filter_cons]
      by_cases hxt : x.mtime = t
      · have hnil : (y :: ys).filter (fun r => r.mtime == t) = [] := by
          refine filter_of_forall_lt ?_
          intro a ha
          rcases List.mem_cons.mp ha with rfl | ha
          · omega
          · have := hy a ha
            simp only [mtimeDesc] at this
            omega
        simp [hxt, hnil]
      · simp [hxt]

theorem pairwise_foldl_insertDesc {l acc : List ProjectRecord}
    (h : acc.Pairwise mtimeDesc) :
    (l.foldl (fun a x => insertDesc x a) acc).Pairwise mtimeDesc := by
  induction l generalizing acc with
  | nil => simpa using h
  | cons x xs ih => exact ih (pairwise_insertDesc h)

theorem filter_foldl_insertDesc {l acc : List ProjectRecord} {t : Nat}
    (h : acc.Pairwise mtimeDesc) :
    (l.foldl (fun a x => insertDesc x a) acc).filter (fun r => r.mtime == t)
      = acc.filter (fun r => r.mtime == t) ++ l.filter (fun r => r.mtime == t) := by
  induction l generalizing acc with
  | nil => simp
  | cons x xs ih =>
    rw [List.foldl_cons, ih (pairwise_insertDesc h), filter_insertDesc h,
      List.filter_cons]
    by_cases hxt : x.mtime = t <;> simp [hxt]

theorem sortByMtimeDesc_pairwise (l : List ProjectRecord) :
    (sortByMtimeDesc l).Pairwise mtimeDesc :=
  pairwise_foldl_insertDesc (by simp)

theorem sortByMtimeDesc_filter (l : List ProjectRecord) (t : Nat) :
    (sortByMtimeDesc l).filter (fun r => r.mtime == t)
      = l.filter (fun r => r.mtime == t) := by
  have := @filter_foldl_insertDesc l [] t (by simp)
  simpa [sortByMtimeDesc] using this

theorem mem_foldl_insertDesc {a : ProjectRecord} {l acc : List ProjectRecord} :
    a ∈ l.foldl (fun s x => insertDesc x s) acc ↔ a ∈ acc ∨ a ∈ l := by
  induction l generalizing acc with
  | nil => simp
  | cons x xs ih =>
    rw [List.foldl_cons, ih]
    simp only [mem_insertDesc, List.mem_cons]
    tauto

theorem mem_sortByMtimeDesc {a : ProjectRecord} {l : List ProjectRecord} :
    a ∈ sortByMtimeDesc l ↔ a ∈ l := by
  rw [sortByMtimeDesc, mem_foldl_insertDesc]
  simp

/-- The per-URI body of the scanner loop (lines 132-147): URIs that do not
start with file:/// are skipped; the decoded path is skipped when it is in
ignored_folders (line 136) or is not currently a directory (line 139);
otherwise a record is built from the filesystem at scan time. -/
def processUri (ignored : List String) (fs : FileSystem) (uri : String) :
    Option ProjectRecord :=
  match decodeUri uri with
  | none => none
  | some path =>
    if path ∈ ignored then none
    else if fs.isDir path then
      some { path := path, name := basename path,
             mtime := fs.mtime path, icon := fs.iconOf path }
    else none

/-- The records accumulated in final_projects in discovery order, before
the sort (lines 130-147). -/
def survivors (uris : List String) (ignored : List String) (fs : FileSystem) :
    List ProjectRecord :=
  uris.filterMap (processUri ignored fs)

/-- One scan over a list of workspace URIs: the loop of lines 130-147
followed by the sort of line 149. -/
def scanProjects (uris : List String) (ignored : List String)
    (fs : FileSystem) : List ProjectRecord :=
  sortByMtimeDesc (survivors uris ignored fs)

theorem processUri_eq_some {ignored : List String} {fs : FileSystem}
    {uri : String} {r : ProjectRecord}
    (h : processUri ignored fs uri = some r) :
    decodeUri uri = some r.path ∧ r.path ∉ ignored ∧ fs.isDir r.path = true := by
  unfold processUri at h
  cases hdec : decodeUri uri with
  | none => rw [hdec] at h; exact absurd h (by simp)
  | some q =>
    rw [hdec] at h
    dsimp only at h
    by_cases hq : q ∈ ignored
    · rw [if_pos hq] at h; exact absurd h (by simp)
    · rw [if_neg hq] at h
      by_cases hd : fs.isDir q
      · rw [if_pos hd] at h
        obtain rfl := Option.some.inj h
        exact ⟨rfl, hq, hd⟩
      · rw [if_neg hd] at h; exact absurd h (by simp)

theorem processUri_some_of {ignored : List String} {fs : FileSystem}
    {uri p : String} (hdec : decodeUri uri = some p) (hni : p ∉ ignored)
    (hd : fs.isDir p = true) :
    processUri ignored fs uri
      = some { path := p, name := basename p,
               mtime := fs.mtime p, icon := fs.iconOf p } := by
  unfold processUri
  rw [hdec]
  dsimp only
  rw [if_neg hni, if_pos hd]

theorem mem_scanProjects_spec {uris ignored : List String} {fs : FileSystem}
    {r : ProjectRecord} (h : r ∈ scanProjects uris ignored fs) :
    r.path ∉ ignored ∧ fs.isDir r.path = true
      ∧ ∃ uri ∈ uris, decodeUri uri = some r.path := by
  rw [scanProjects, mem_sortByMtimeDesc, survivors, List.mem_filterMap] at h
  obtain ⟨uri, huri, hproc⟩ := h
  obtain ⟨hdec, hni, hd⟩ := processUri_eq_some hproc
  exact ⟨hni, hd, uri, huri, hdec⟩

/-- The state of a file on disk, as far as the engine observes it:
absent, holding a valid serialized record list, or truncated (the state
left by open(name, "w") before any bytes are written). -/
inductive FileState where
  | missing
  | valid (records : List ProjectRecord)
  | truncated
deriving DecidableEq, Repr

/-- The cache-file states passed through by the save of lines 151-152:
open(CACHE_FILE, "w") truncates the cache file in place, then json.dump
writes the records.  There is no temporary file and no rename. -/
def saveCacheStates (records : List ProjectRecord) : List FileState :=
  [FileState.truncated, FileState.valid records]

/-- The workspace-state source read in run (lines 111-129): no storage
file at any known location, a file whose open or json.load raises, or a
decoded list of workspace URIs. -/
inductive StorageState where
  | missing
  | unreadable
  | workspaces (uris : List String)
deriving Repr

/-- The environment of one ProjectScannerWorker.run invocation. -/
structure ScanEnv where
  storage : StorageState
  fs : FileSystem

/-- ProjectScannerWorker.run (lines 108-158), returning the final
cache-file state and the emitted record list.  A missing storage file
returns early (lines 122-124) and an exception ends in the except branch
(lines 156-158); both emit an empty list and leave the cache untouched.
A normal pass writes the cache (lines 151-152) and emits the records. -/
def workerRun (env : ScanEnv) (ignored : List String) (cache : FileState) :
    FileState × List ProjectRecord :=
  match env.storage with
  | StorageState.missing => (cache, [])
  | StorageState.unreadable => (cache, [])
  | StorageState.workspaces uris =>
    let final := scanProjects uris ignored env.fs
    (FileState.valid final, final)

/-- The successive cache-file states over one run: a failing run never
touches the file; a normal run drives it through the in-place save. -/
def workerCacheStates (env : ScanEnv) (ignored : List String)
    (cache : FileState) : List FileState :=
  match env.storage with
  | StorageState.missing => [cache]
  | StorageState.unreadable => [cache]
  | StorageState.workspaces uris =>
    cache :: saveCacheStates (scanProjects uris ignored env.fs)

/-- The comparison of on_scan_finished (lines 339-342): the snapshots
changed exactly when the ordered path lists differ. -/
def diffChanged (old new : List ProjectRecord) : Bool :=
  old.map (fun p => p.path) != new.map (fun p => p.path)

/-- The engine state owned by VSCodeLauncher: the in-memory snapshot
projects_data, the cache file on disk, and the resolved executable. -/
structure EngineState where
  projects_data : List ProjectRecord
  cacheFile : FileState
  vscode_exe : Option String
deriving DecidableEq, Repr

/-- VSCodeLauncher.on_scan_finished (lines 337-347): always store the
executable path; replace the in-memory snapshot only when the ordered
path list changed. -/
def on_scan_finished (st : EngineState) (projects : List ProjectRecord)
    (vscode_path : Option String) : EngineState :=
  if diffChanged st.projects_data projects then
    { st with vscode_exe := vscode_path, projects_data := projects }
  else
    { st with vscode_exe := vscode_path }

/-- One worker completing normally: it has written the cache
(lines 151-152) before its finished signal runs on_scan_finished
(line 154 then lines 337-347). -/
def worker_finish (st : EngineState) (projects : List ProjectRecord)
    (vscode_path : Option String) : EngineState :=
  on_scan_finished { st with cacheFile := FileState.valid projects }
    projects vscode_path

/-- A sequence of normally completing scans delivered to the engine in
completion order.  start_scan (lines 259-262) installs no generation
counter: every finished signal reaches on_scan_finished. -/
def deliverResults (st : EngineState)
    (results : List (List ProjectRecord × Option String)) : EngineState :=
  results.foldl (fun s r => worker_finish s r.fst r.snd) st

/-- The observable states of the cache file for load_from_cache
(lines 327-335): absent (the os.path.exists guard fails), present but
raising on open or json.load, or parsed to a record list. -/
inductive CacheReadState where
  | missing
  | unreadable
  | parsed (records : List ProjectRecord)
deriving DecidableEq, Repr

/-- The read attempt inside load_from_cache: none when the existence
guard fails and no read happens, otherwise the outcome of
open + json.load as an Except. -/
def readCache : CacheReadState → Option (Except String (List ProjectRecord))
  | CacheReadState.missing => none
  | CacheReadState.unreadable => some (Except.error "read or parse failure")
  | CacheReadState.parsed rs => some (Except.ok rs)

/-- VSCodeLauncher.load_from_cache (lines 327-335): a missing file skips
the body, a raising read is caught and logged (line 335), leaving
projects_data at its previous value; a parsed file replaces it. -/
def load_from_cache (prev : List ProjectRecord) (s : CacheReadState) :
    List ProjectRecord :=
  match readCache s with
  | none => prev
  | some (Except.error _) => prev
  | some (Except.ok rs) => rs

/-- projects_data as initialized in VSCodeLauncher.__init__ (line 243),
the value in place when load_from_cache first runs. -/
def startupProjects : List ProjectRecord := []

/-- Join of two Windows path components as used through os.path.join in
find_vscode_executable: an empty left component (an unset environment
variable read with a default of the empty string) contributes nothing. -/
def join2 (a b : String) : String := if a = "" then b else a ++ "\\" ++ b

/-- os.path.join over a component list, left to right. -/
def osJoin (a : String) (rest : List String) : String := rest.foldl join2 a

/-- The environment of find_vscode_executable (lines 43-89). -/
structure ResolveEnv where
  /-- CONFIG_FILE: none when the file does not exist (line 45); an error
  when open or json.load or the key lookup raises (caught at line 52);
  ok p with the truthy vscode_path value, or ok none when the key is
  absent, null or empty (all falsy at line 50). -/
  config : Option (Except Unit (Option String))
  /-- os.environ.get("LOCALAPPDATA", "") (line 56). -/
  localAppData : String
  /-- os.environ.get("ProgramFiles", "") (line 57). -/
  programFiles : String
  /-- os.environ.get("ProgramFiles(x86)", "") (line 58). -/
  programFilesX86 : String
  /-- os.path.exists. -/
  fileExists : String → Bool
  /-- The stripped stdout lines of the where code subprocess (line 78);
  an error when the subprocess itself raises (caught at line 82). -/
  whereCode : Except Unit (List String)

/-- The fixed ordered probe list of lines 59-68; the extra x86 entry is
appended only when the environment variable is set. -/
def possible_vscode_paths (env : ResolveEnv) : List String :=
  [osJoin env.localAppData ["Programs", "Microsoft VS Code", "Code.exe"],
   osJoin env.localAppData ["Programs", "Microsoft VS Code", "bin", "code.cmd"],
   osJoin env.programFiles ["Microsoft VS Code", "Code.exe"],
   osJoin env.programFiles ["Microsoft VS Code", "bin", "code.cmd"]]
  ++ (if env.programFilesX86 ≠ ""
      then [osJoin env.programFilesX86 ["Microsoft VS Code", "Code.exe"]]
      else [])

/-- The config fast path (lines 45-53): the cached path is returned only
when the config parses, the value is truthy and the path still exists. -/
def cachedVscodePath (env : ResolveEnv) : Option String :=
  match env.config with
  | some (Except.ok (some p)) => if env.fileExists p then some p else none
  | _ => none

/-- The where code outcome (lines 76-83): the first stdout line when it
exists on disk; an empty stdout raises IndexError on the [0] index and a
failing subprocess raises, both caught by the bare except. -/
def whereFoundPath (env : ResolveEnv) : Option String :=
  match env.whereCode with
  | Except.ok (first :: _) =>
    if env.fileExists first then some first else none
  | _ => none

/-- ProjectScannerWorker.find_vscode_executable (lines 43-89), returning
the resolved path together with the value persisted to CONFIG_FILE
(lines 85-87), if any.  Every failure of a sub-step is caught inside the
function, so a not-found outcome is the ordinary value none. -/
def find_vscode_executable (env : ResolveEnv) : Option String × Option String :=
  match cachedVscodePath env with
  | some p => (some p, none)
  | none =>
    let probed := (possible_vscode_paths env).find? env.fileExists
    let found := match probed with
      | some p => some p
      | none => whereFoundPath env
    match found with
    | some p => (some p, some p)
    | none => (none, none)

/-- The well-known rendezvous name (line 33). -/
def SOCKET_NAME : String := "VSCodeLauncherInstance"

/-- One observable step of the secondary branch of main. -/
inductive SocketAction where
  | connectToServer (name : String)
  | waitForConnected (ms : Nat)
  | writeBytes (msg : String)
  | flush
  | waitForBytesWritten (ms : Nat)
  | exitProcess (code : Nat)
deriving DecidableEq, Repr

/-- The secondary branch of main (lines 563-571): connect to the
rendezvous name, wait at most 500 ms, write the SHOW token, flush, wait
at most 1000 ms for the bytes, then exit the process with status 0. -/
def secondaryActions : List SocketAction :=
  [SocketAction.connectToServer SOCKET_NAME,
   SocketAction.waitForConnected 500,
   SocketAction.writeBytes "SHOW",
   SocketAction.flush,
   SocketAction.waitForBytesWritten 1000,
   SocketAction.exitProcess 0]

def isWriteAction : SocketAction → Bool
  | SocketAction.writeBytes _ => true
  | _ => false

/-- One inbound connection as the primary observes it: an oracle telling
whether data became ready within a given wait budget in milliseconds, and
the bytes readAll then yields. -/
structure ConnectionEvent where
  readyWithin : Nat → Bool
  data : String

/-- handle_connection (lines 588-593): wait at most 1000 ms for the
client bytes; on the SHOW token invoke show_window, the bring-to-front
action.  The result records whether show_window was invoked. -/
def handle_connection (ev : ConnectionEvent) : Bool :=
  if ev.readyWithin 1000 then ev.data == "SHOW" else false

/-- The number of bring-to-front invocations over a list of inbound
connections, each handled once by handle_connection (line 595 connects
the newConnection signal to it). -/
def primaryShowCount (events : List ConnectionEvent) : Nat :=
  (events.filter handle_connection).length

/-- A delivered secondary connection: the written bytes arrive intact
within any wait budget. -/
def deliveredShow : ConnectionEvent :=
  { readyWithin := fun _ => true, data := "SHOW" }

/-- The filesystem of the ordering scenario of the specification:
every path is a directory, path a has mtime 100, path b mtime 300 and
anything else mtime 200. -/
def sampleFs : FileSystem :=
  { isDir := fun _ => true,
    mtime := fun p => if p = "a" then 100 else if p = "b" then 300 else 200,
    iconOf := fun _ => none }

theorem worker_finish_projects (s : EngineState) (ps : List ProjectRecord)
    (vp : Option String) :
    (worker_finish s ps vp).projects_data
      = if diffChanged s.projects_data ps then ps else s.projects_data := by
  rw [worker_finish, on_scan_finished]
  by_cases hd : diffChanged s.projects_data ps = true
  · simp [hd]
  · simp [hd]

theorem worker_finish_cache (s : EngineState) (ps : List ProjectRecord)
    (vp : Option String) :
    (worker_finish s ps vp).cacheFile = FileState.valid ps := by
  rw [worker_finish, on_scan_finished]
  by_cases hd : diffChanged s.projects_data ps = true <;> simp [hd]

/-- C1 counterexample: two scans are requested (generation 1 with result
list containing path a, generation 2 with result list containing path b)
and generation 1 completes after generation 2.  The engine has no
generation counter, so the final visible snapshot is the stale
generation-1 result, not the generation-2 result the claim requires. -/
theorem stale_scan_overwrites_cex :
    (deliverResults ⟨[], FileState.missing, none⟩
      [([⟨"b", "b", 2, none⟩], none), ([⟨"a", "a", 1, none⟩], none)]).projects_data
      = [⟨"a", "a", 1, none⟩]
    ∧ ([⟨"a", "a", 1, none⟩] : List ProjectRecord) ≠ [⟨"b", "b", 2, none⟩] := by
  decide

/-- C1 amended: on_scan_finished compares no generations; whichever scan
delivers its finished signal last wins whenever its ordered path list
differs from the result delivered just before it.  In particular a stale
generation-1 result completing after generation 2 does overwrite the
generation-2 snapshot. -/
theorem last_completed_scan_wins (st : EngineState)
    (r₁ r₂ : List ProjectRecord) (v₁ v₂ : Option String)
    (h : r₁.map (fun p => p.path) ≠ r₂.map (fun p => p.path)) :
    (deliverResults st [(r₂, v₂), (r₁, v₁)]).projects_data = r₁ := by
  have hstep : ∀ s : EngineState,
      (worker_finish s r₂ v₂).projects_data.map (fun p => p.path)
        = r₂.map (fun p => p.path) := by
    intro s
    rw [worker_finish_projects]
    by_cases hd : diffChanged s.projects_data r₂ = true
    · rw [if_pos hd]
    · rw [if_neg hd]
      have hfalse : diffChanged s.projects_data r₂ = false :=
        Bool.eq_false_iff.mpr hd
      rw [diffChanged] at hfalse
      exact eq_of_beq (by simpa using hfalse)
  rw [deliverResults]
  simp only [List.foldl_cons, List.foldl_nil]
  have hcond : diffChanged (worker_finish st r₂ v₂).projects_data r₁ = true := by
    rw [diffChanged]
    refine bne_iff_ne.mpr ?_
    rw [hstep st]
    exact Ne.symm h
  rw [worker_finish_projects, hcond]
  simp

/-- C1 amended witness at a concrete input. -/
theorem last_completed_scan_wins_witness :
    (deliverResults ⟨[], FileState.missing, none⟩
      [([⟨"d", "d", 2, none⟩], none), ([⟨"c", "c", 1, none⟩], none)]).projects_data
      = [⟨"c", "c", 1, none⟩] :=
  last_completed_scan_wins ⟨[], FileState.missing, none⟩
    [⟨"c", "c", 1, none⟩] [⟨"d", "d", 2, none⟩] none none (by decide)

/-- C2 counterexample: a worker run over a previously valid cache drives
the cache file through the truncated state (open with mode w truncates in
place before json.dump writes), so a crash at that point leaves the file
without its previously valid contents — the write is not a temporary
file plus rename. -/
theorem cache_write_truncates_cex :
    FileState.truncated ∈ workerCacheStates
        ⟨StorageState.workspaces [], ⟨fun _ => false, fun _ => 0, fun _ => none⟩⟩
        [] (FileState.valid [⟨"p", "p", 5, none⟩])
    ∧ FileState.truncated ≠ FileState.valid [⟨"p", "p", 5, none⟩] := by
  decide

/-- C2 amended: a scan that fails (missing or unreadable storage, the
paths that raise or return early before line 151) leaves the cache file
untouched; but a successful scan rewrites the cache file in place — its
first effect on the file is truncation, there is no temporary location
and no rename — and ends with the freshly scanned records. -/
theorem failed_scan_keeps_cache_save_truncates (env : ScanEnv)
    (ignored : List String) (cache : FileState) :
    ((env.storage = StorageState.missing ∨ env.storage = StorageState.unreadable) →
      (workerRun env ignored cache).fst = cache
      ∧ workerCacheStates env ignored cache = [cache])
    ∧ (∀ uris, env.storage = StorageState.workspaces uris →
        FileState.truncated ∈ workerCacheStates env ignored cache
        ∧ (workerCacheStates env ignored cache).getLast?
            = some (FileState.valid (scanProjects uris ignored env.fs))) := by
  constructor
  · intro h
    rcases h with h | h <;> simp [workerRun, workerCacheStates, h]
  · intro uris h
    constructor
    · simp [workerCacheStates, h, saveCacheStates]
    · simp [workerCacheStates, h, saveCacheStates, List.getLast?]

/-- C2 amended witness at a concrete input. -/
theorem failed_scan_keeps_cache_save_truncates_witness :
    (workerRun ⟨StorageState.missing, ⟨fun _ => false, fun _ => 0, fun _ => none⟩⟩
        [] (FileState.valid [⟨"p", "p", 1, none⟩])).fst
      = FileState.valid [⟨"p", "p", 1, none⟩] :=
  ((failed_scan_keeps_cache_save_truncates
      ⟨StorageState.missing, ⟨fun _ => false, fun _ => 0, fun _ => none⟩⟩
      [] (FileState.valid [⟨"p", "p", 1, none⟩])).1 (Or.inl rfl)).1

/-- C3 counterexample: the source keys are distinct URIs, but the two
URIs file:///ab and file:///%61b percent-decode to the same path ab, so
a scan over them produces two records with the same path — the
no-duplicates half of the claim fails. -/
theorem scan_duplicate_paths_cex :
    (["file:///ab", "file:///%61b"] : List String).Nodup
    ∧ ¬ ((scanProjects ["file:///ab", "file:///%61b"] []
          ⟨fun p => p == "ab", fun _ => 0, fun _ => none⟩).map
            (fun r => r.path)).Nodup := by
  decide

/-- C3 amended: every record in a scan result has a path the filesystem
reported as a directory at scan time (existence is re-verified per
candidate, line 139); but the result can contain two records with the
same path when two distinct source URIs decode to the same filesystem
path. -/
theorem scan_paths_are_directories (uris ignored : List String)
    (fs : FileSystem) :
    ∀ r ∈ scanProjects uris ignored fs, fs.isDir r.path = true := by
  intro r hr
  exact (mem_scanProjects_spec hr).2.1

/-- C3 amended witness at a concrete input. -/
theorem scan_paths_are_directories_witness :
    (⟨fun _ => true, fun _ => 0, fun _ => none⟩ : FileSystem).isDir
      (⟨"q", "q", 0, none⟩ : ProjectRecord).path = true :=
  scan_paths_are_directories ["file:///q"] []
    ⟨fun _ => true, fun _ => 0, fun _ => none⟩
    ⟨"q", "q", 0, none⟩ (by decide)

/-- C4: scan results are the surviving records sorted by modification
time descending (Pairwise mtimeDesc), ties broken by discovery order
(the filter of every modification-time class is kept in discovery
order), and the specification scenario with mtimes 100, 300 and 200
orders the snapshot as b, c, a. -/
theorem scan_sorted_stable_desc (uris ignored : List String)
    (fs : FileSystem) :
    (scanProjects uris ignored fs).Pairwise mtimeDesc
    ∧ (∀ t, (scanProjects uris ignored fs).filter (fun r => r.mtime == t)
          = (survivors uris ignored fs).filter (fun r => r.mtime == t))
    ∧ (scanProjects ["file:///a", "file:///b", "file:///c"] [] sampleFs).map
        (fun r => r.path) = ["b", "c", "a"] :=
  ⟨sortByMtimeDesc_pairwise _, fun t => sortByMtimeDesc_filter _ t, by decide⟩

/-- C5 counterexample: two records sharing a path but differing in mtime
are swapped; the swapped snapshot differs from the original, yet diff
compares only the ordered path sequences and reports no change. -/
theorem diff_swap_equal_paths_cex :
    diffChanged
      [⟨"p", "p", 1, none⟩, ⟨"p", "p", 2, none⟩]
      [⟨"p", "p", 2, none⟩, ⟨"p", "p", 1, none⟩] = false
    ∧ ([⟨"p", "p", 1, none⟩, ⟨"p", "p", 2, none⟩] : List ProjectRecord)
        ≠ [⟨"p", "p", 2, none⟩, ⟨"p", "p", 1, none⟩] := by
  decide

/-- C5 amended: diff compares exactly the ordered path sequences, so
diff of any snapshot with itself is false, and swapping two elements
whose paths are distinct always yields true; swapping elements that
share a path cannot be detected. -/
theorem diff_order_sensitive_distinct_paths (S a b c : List ProjectRecord)
    (x y : ProjectRecord) (h : x.path ≠ y.path) :
    diffChanged S S = false
    ∧ diffChanged (a ++ x :: (b ++ y :: c)) (a ++ y :: (b ++ x :: c)) = true := by
  constructor
  · simp [diffChanged]
  · rw [diffChanged]
    refine bne_iff_ne.mpr ?_
    intro heq
    simp only [List.map_append, List.map_cons] at heq
    have h₂ : x.path :: (List.map (fun p => p.path) b
          ++ y.path :: List.map (fun p => p.path) c)
        = y.path :: (List.map (fun p => p.path) b
          ++ x.path :: List.map (fun p => p.path) c) :=
      List.append_cancel_left heq
    injection h₂ with h₃ _
    exact h h₃

/-- C5 amended witness at a concrete input. -/
theorem diff_order_sensitive_distinct_paths_witness :
    diffChanged [] [] = false
    ∧ diffChanged
        ([] ++ (⟨"x", "x", 1, none⟩ : ProjectRecord) :: [] ++ ⟨"y", "y", 2, none⟩ :: [])
        ([] ++ (⟨"y", "y", 2, none⟩ : ProjectRecord) :: [] ++ ⟨"x", "x", 1, none⟩ :: []) = true :=
  diff_order_sensitive_distinct_paths [] [] [] []
    ⟨"x", "x", 1, none⟩ ⟨"y", "y", 2, none⟩ (by decide)

/-- C6: a path in the ignore list never appears in a scan result, even
when some source URI decodes to it; a path not in the ignore list that
is a directory and is listed by the source appears in the result. -/
theorem ignore_set_excludes_and_restores (uris ignored : List String)
    (fs : FileSystem) (p : String) :
    (p ∈ ignored → p ∉ (scanProjects uris ignored fs).map (fun r => r.path))
    ∧ (p ∉ ignored → fs.isDir p = true →
        (∃ uri ∈ uris, decodeUri uri = some p) →
        p ∈ (scanProjects uris ignored fs).map (fun r => r.path)) := by
  constructor
  · intro hp hmem
    rw [List.mem_map] at hmem
    obtain ⟨r, hr, rfl⟩ := hmem
    exact (mem_scanProjects_spec hr).1 hp
  · rintro hnp hd ⟨uri, huri, hdec⟩
    rw [List.mem_map]
    refine ⟨⟨p, basename p, fs.mtime p, fs.iconOf p⟩, ?_, rfl⟩
    rw [scanProjects, mem_sortByMtimeDesc, survivors, List.mem_filterMap]
    exact ⟨uri, huri, processUri_some_of hdec hnp hd⟩

/-- C6 witness at a concrete input: the same source with path q ignored
and then not ignored. -/
theorem ignore_set_excludes_and_restores_witness :
    "q" ∉ (scanProjects ["file:///q"] ["q"]
        ⟨fun _ => true, fun _ => 0, fun _ => none⟩).map (fun r => r.path)
    ∧ "q" ∈ (scanProjects ["file:///q"] []
        ⟨fun _ => true, fun _ => 0, fun _ => none⟩).map (fun r => r.path) :=
  ⟨(ignore_set_excludes_and_restores ["file:///q"] ["q"]
      ⟨fun _ => true, fun _ => 0, fun _ => none⟩ "q").1 (by decide),
   (ignore_set_excludes_and_restores ["file:///q"] []
      ⟨fun _ => true, fun _ => 0, fun _ => none⟩ "q").2 (by decide) rfl
     ⟨"file:///q", by decide, by decide⟩⟩

/-- C7: at startup (projects_data initialized empty), a missing cache
file or one whose read or parse raises leaves the snapshot empty; the
failure is caught inside load_from_cache, which is a total function. -/
theorem load_cache_missing_or_corrupt_empty (s : CacheReadState)
    (h : s = CacheReadState.missing ∨ s = CacheReadState.unreadable) :
    load_from_cache startupProjects s = [] := by
  rcases h with rfl | rfl <;> rfl

/-- C7 witness at a concrete input. -/
theorem load_cache_missing_or_corrupt_empty_witness :
    load_from_cache startupProjects CacheReadState.missing = [] :=
  load_cache_missing_or_corrupt_empty CacheReadState.missing (Or.inl rfl)

theorem primaryShowCount_replicate (n : Nat) :
    primaryShowCount (List.replicate n deliveredShow) = n := by
  induction n with
  | zero => rfl
  | succ k ih =>
    have hd : handle_connection deliveredShow = true := by decide
    rw [primaryShowCount] at ih ⊢
    rw [List.replicate_succ, List.filter_cons, hd]
    simp [ih]

/-- C8: the secondary branch connects to the rendezvous name with a
500 ms bounded wait, writes exactly one SHOW token, waits a bounded
1000 ms for the write, and its last action exits the process with
status 0; the primary handler accepts a delivered SHOW within its
1000 ms bounded read, and over n secondary launches whose messages are
delivered it invokes the bring-to-front action exactly n times. -/
theorem single_instance_show_protocol (n : Nat) :
    secondaryActions.filter isWriteAction = [SocketAction.writeBytes "SHOW"]
    ∧ SocketAction.connectToServer SOCKET_NAME ∈ secondaryActions
    ∧ SocketAction.waitForConnected 500 ∈ secondaryActions
    ∧ SocketAction.waitForBytesWritten 1000 ∈ secondaryActions
    ∧ secondaryActions.getLast? = some (SocketAction.exitProcess 0)
    ∧ handle_connection deliveredShow = true
    ∧ primaryShowCount (List.replicate n deliveredShow) = n :=
  ⟨by decide, by decide, by decide, by decide, by decide, by decide,
   primaryShowCount_replicate n⟩

/-- C9: find_vscode_executable returns the cached config path first when
it still exists (without persisting), otherwise the first existing probe
path, otherwise the command-lookup result, persisting the path exactly
when it was found by probing or lookup, and returns none as an ordinary
value when everything fails. -/
theorem find_vscode_executable_order (env : ResolveEnv) :
    (∀ p, cachedVscodePath env = some p →
        find_vscode_executable env = (some p, none))
    ∧ (cachedVscodePath env = none →
        ∀ p, (possible_vscode_paths env).find? env.fileExists = some p →
          find_vscode_executable env = (some p, some p))
    ∧ (cachedVscodePath env = none →
        (possible_vscode_paths env).find? env.fileExists = none →
        ∀ p, whereFoundPath env = some p →
          find_vscode_executable env = (some p, some p))
    ∧ (cachedVscodePath env = none →
        (possible_vscode_paths env).find? env.fileExists = none →
        whereFoundPath env = none →
        find_vscode_executable env = (none, none)) := by
  refine ⟨?_, ?_, ?_, ?_⟩
  · intro p hp
    simp [find_vscode_executable, hp]
  · intro hc p hp
    simp [find_vscode_executable, hc, hp]
  · intro hc hp p hw
    simp [find_vscode_executable, hc, hp, hw]
  · intro hc hp hw
    simp [find_vscode_executable, hc, hp, hw]

/-- C9 witness at a concrete input where every resolution step fails:
the not-found outcome is the ordinary value none and nothing is
persisted. -/
theorem find_vscode_executable_order_witness :
    find_vscode_executable
      ⟨none, "", "", "", fun _ => false, Except.error ()⟩ = (none, none) :=
  (find_vscode_executable_order
      ⟨none, "", "", "", fun _ => false, Except.error ()⟩).2.2.2
    rfl (by decide) rfl

/-- C10: when a completed scan reports the same ordered path list as the
in-memory snapshot, on_scan_finished keeps the old in-memory records
even though the worker already overwrote the cache file with the new
records; when the record lists differ (fresh mtimes or icons), the
in-memory snapshot and the cache file then disagree. -/
theorem stale_inmemory_records_vs_cache (st : EngineState)
    (fresh : List ProjectRecord) (v : Option String)
    (hpaths : st.projects_data.map (fun p => p.path)
      = fresh.map (fun p => p.path))
    (hneq : st.projects_data ≠ fresh) :
    (worker_finish st fresh v).projects_data = st.projects_data
    ∧ (worker_finish st fresh v).cacheFile = FileState.valid fresh
    ∧ FileState.valid (worker_finish st fresh v).projects_data
        ≠ (worker_finish st fresh v).cacheFile := by
  have hd : diffChanged st.projects_data fresh = false := by
    rw [diffChanged]
    simp [hpaths]
  have h1 : (worker_finish st fresh v).projects_data = st.projects_data := by
    rw [worker_finish_projects, hd]
    simp
  refine ⟨h1, worker_finish_cache st fresh v, ?_⟩
  rw [h1, worker_finish_cache]
  intro hcontra
  exact hneq (FileState.valid.inj hcontra)

/-- C10 witness at a concrete input: same path, newer mtime. -/
theorem stale_inmemory_records_vs_cache_witness :
    (worker_finish ⟨[⟨"p", "p", 1, none⟩], FileState.missing, none⟩
        [⟨"p", "p", 2, none⟩] none).projects_data = [⟨"p", "p", 1, none⟩]
    ∧ (worker_finish ⟨[⟨"p", "p", 1, none⟩], FileState.missing, none⟩
        [⟨"p", "p", 2, none⟩] none).cacheFile
        = FileState.valid [⟨"p", "p", 2, none⟩]
    ∧ FileState.valid (worker_finish ⟨[⟨"p", "p", 1, none⟩], FileState.missing, none⟩
        [⟨"p", "p", 2, none⟩] none).projects_data
        ≠ (worker_finish ⟨[⟨"p", "p", 1, none⟩], FileState.missing, none⟩
        [⟨"p", "p", 2, none⟩] none).cacheFile :=
  stale_inmemory_records_vs_cache
    ⟨[⟨"p", "p", 1, none⟩], FileState.missing, none⟩
    [⟨"p", "p", 2, none⟩] none (by decide) (by decide)

end VSCodeHub
